import Mathlib

/-!
Verification of the ai-cat-window-controller repository.

Shallow embedding of the Python sources:
* `src/window_controller.py` — `WindowController` (actuator state machine,
  cooldown, manual mode, idempotency);
* `src/cat_window.py` — the Modbus wire sequences (`open_window`,
  `close_window`, `set_window_angle`, `set_lock_angle`);
* `src/cat_detector.py` — `CatDetectorApp` (frame scan with ROI, adaptive
  threshold, presence debounce filter, presence/absence timers);
* `src/cat_detector_callback.py` — `HeadlessCatDetectorCallback`;
* `src/headless_detection.py` — `app_callback` (frame scan without ROI).

Machine integers and `datetime` values are modelled as `ℤ` (timestamps in
seconds; all thresholds in the sources are whole seconds), angles and
confidences as `ℚ`.  A fallible subprocess / Modbus call is modelled by an
explicit success parameter or oracle, and the wire traffic produced by a
call is returned as an explicit list of commands/events.
-/

namespace CatWindow

/-- Wire commands that `WindowController._execute_window_command` passes to
`cat_window.py` (`apri`, `chiudi`, `blocca`, `sblocca`, `finestra <angle>`). -/
inductive WireCmd where
  | apri : WireCmd
  | chiudi : WireCmd
  | blocca : WireCmd
  | sblocca : WireCmd
  | finestra : ℚ → WireCmd
deriving DecidableEq, Repr

/-- The mutable state of `WindowController` (src/window_controller.py,
`__init__`).  `last_command_time` is `none` until the first successful
command, as in the source. -/
structure WCState where
  current_angle : ℚ
  target_angle : ℚ
  current_lock_angle : ℚ
  target_lock_angle : ℚ
  last_command_time : Option ℤ
  manual_mode : Bool
  is_window_open : Bool
  is_window_locked : Bool
deriving DecidableEq, Repr

/-- `self.CLOSED_ANGLE = 77`. -/
def CLOSED_ANGLE : ℚ := 77
/-- `self.OPEN_ANGLE = 120`. -/
def OPEN_ANGLE : ℚ := 120
/-- `self.LOCK_CLOSED = 0`. -/
def LOCK_CLOSED : ℚ := 0
/-- `self.LOCK_OPEN = 90`. -/
def LOCK_OPEN : ℚ := 90
/-- `self.command_cooldown = timedelta(seconds=5)` in seconds. -/
def command_cooldown : ℤ := 5

/-- The state built by `WindowController.__init__`: closed, locked, automatic
mode, no command issued yet. -/
def initWCState : WCState :=
  { current_angle := CLOSED_ANGLE
    target_angle := CLOSED_ANGLE
    current_lock_angle := LOCK_CLOSED
    target_lock_angle := LOCK_CLOSED
    last_command_time := none
    manual_mode := false
    is_window_open := false
    is_window_locked := true }

/-- The cooldown guard shared by all three commands:
`self.last_command_time is not None and current_time - self.last_command_time
< self.command_cooldown`. -/
def cooldownBlocked (s : WCState) (now : ℤ) : Bool :=
  match s.last_command_time with
  | none => false
  | some t => decide (now - t < command_cooldown)

/-- Result of one `WindowController` method call: the new state, the returned
boolean, and the wire commands actually handed to `cat_window.py` during the
call (in order). -/
structure WCResult where
  st : WCState
  ret : Bool
  wire : List WireCmd
deriving DecidableEq, Repr

/-- `WindowController.set_window_position(should_be_open, manual)`
(src/window_controller.py lines 62-118).  `wireOk` is the outcome of the
single `_execute_window_command` subprocess call this invocation may make;
`now` is `datetime.now()` at entry. -/
def set_window_position (wireOk : Bool) (should_be_open manual : Bool)
    (now : ℤ) (s : WCState) : WCResult :=
  if cooldownBlocked s now then ⟨s, false, []⟩
  else
    let s1 := if manual then { s with manual_mode := true } else s
    if should_be_open == s1.is_window_open && !manual then ⟨s1, false, []⟩
    else if should_be_open then
      if wireOk then
        ⟨{ s1 with
            current_angle := OPEN_ANGLE
            target_angle := OPEN_ANGLE
            current_lock_angle := LOCK_OPEN
            target_lock_angle := LOCK_OPEN
            is_window_open := true
            is_window_locked := false
            last_command_time := some now }, true, [WireCmd.apri]⟩
      else ⟨s1, false, [WireCmd.apri]⟩
    else
      if wireOk then
        ⟨{ s1 with
            current_angle := CLOSED_ANGLE
            target_angle := CLOSED_ANGLE
            current_lock_angle := LOCK_CLOSED
            target_lock_angle := LOCK_CLOSED
            is_window_open := false
            is_window_locked := true
            last_command_time := some now }, true, [WireCmd.chiudi]⟩
      else ⟨s1, false, [WireCmd.chiudi]⟩

/-- `WindowController.set_lock_position(should_be_locked, manual)`
(src/window_controller.py lines 120-170). -/
def set_lock_position (wireOk : Bool) (should_be_locked manual : Bool)
    (now : ℤ) (s : WCState) : WCResult :=
  if cooldownBlocked s now then ⟨s, false, []⟩
  else
    let s1 := if manual then { s with manual_mode := true } else s
    if should_be_locked == s1.is_window_locked && !manual then ⟨s1, false, []⟩
    else if should_be_locked then
      if wireOk then
        ⟨{ s1 with
            current_lock_angle := LOCK_CLOSED
            target_lock_angle := LOCK_CLOSED
            is_window_locked := true
            last_command_time := some now }, true, [WireCmd.blocca]⟩
      else ⟨s1, false, [WireCmd.blocca]⟩
    else
      if wireOk then
        ⟨{ s1 with
            current_lock_angle := LOCK_OPEN
            target_lock_angle := LOCK_OPEN
            is_window_locked := false
            last_command_time := some now }, true, [WireCmd.sblocca]⟩
      else ⟨s1, false, [WireCmd.sblocca]⟩

/-- The final part of `WindowController.set_window_angle`
(src/window_controller.py lines 209-221), reached after the cooldown, range
and unlock steps: issue the `finestra` command and, on success, record the
new angle, recompute `is_window_open` (`angle > CLOSED_ANGLE + 5`) and stamp
`last_command_time` with the outer call time. -/
def set_window_angle_tail (wireWin : Bool) (angle : ℚ) (now : ℤ)
    (s2 : WCState) (ops : List WireCmd) : WCResult :=
  if wireWin then
    ⟨{ s2 with
        current_angle := angle
        target_angle := angle
        is_window_open := decide (CLOSED_ANGLE + 5 < angle)
        last_command_time := some now }, true,
      ops ++ [WireCmd.finestra angle]⟩
  else ⟨s2, false, ops ++ [WireCmd.finestra angle]⟩

/-- `WindowController.set_window_angle(angle, manual)`
(src/window_controller.py lines 172-221): cooldown guard, manual flag, range
check, unlock-when-locked (a full inner `set_lock_position(False, manual)`
call, aborting on its failure), then the `finestra` command
(`set_window_angle_tail`).  `wireLock` / `wireWin` are the outcomes of the
two possible subprocess calls, `now` is the outer `datetime.now()` and
`nowInner` the one taken inside the nested `set_lock_position` call. -/
def set_window_angle (wireLock wireWin : Bool) (angle : ℚ) (manual : Bool)
    (now nowInner : ℤ) (s : WCState) : WCResult :=
  if cooldownBlocked s now then ⟨s, false, []⟩
  else
    let s1 := if manual then { s with manual_mode := true } else s
    if !(decide (CLOSED_ANGLE ≤ angle) && decide (angle ≤ OPEN_ANGLE)) then
      ⟨s1, false, []⟩
    else if s1.is_window_locked then
      let r := set_lock_position wireLock false manual nowInner s1
      if r.ret then set_window_angle_tail wireWin angle now r.st r.wire
      else ⟨r.st, false, r.wire⟩
    else set_window_angle_tail wireWin angle now s1 []

/-! ### Detector-side definitions (src/cat_detector.py, src/cat_detector_callback.py,
src/headless_detection.py) -/

/-- `DETECTION_CONFIG.get('required_detection_time', 10)` seconds. -/
def required_detection_time : ℤ := 10
/-- `DETECTION_CONFIG.get('required_no_detection_time', 3)` seconds. -/
def required_no_detection_time : ℤ := 3
/-- `DETECTION_CONFIG.get('detection_filter_window', 3)` seconds
(cat_detector.py). -/
def detection_filter_window : ℤ := 3
/-- `self.detection_filter_window = timedelta(seconds=5)`
(cat_detector_callback.py). -/
def cb_detection_filter_window : ℤ := 5
/-- `DETECTION_CONFIG.get('min_confidence', 0.7)` (cat_detector.py). -/
def default_min_confidence : ℚ := 7/10
/-- `self.min_confidence_closed = 0.7` (cat_detector_callback.py). -/
def min_confidence_closed : ℚ := 7/10
/-- `self.min_confidence_open = 0.5` (cat_detector_callback.py). -/
def min_confidence_open : ℚ := 1/2

/-- `CatDetectorApp.get_current_confidence_threshold`
(src/cat_detector.py lines 282-292): `min_confidence * 0.8` while the window
is open, `min_confidence` otherwise. -/
def get_current_confidence_threshold (min_confidence : ℚ)
    (is_window_open : Bool) : ℚ :=
  if is_window_open then min_confidence * (8/10) else min_confidence

/-- `HeadlessCatDetectorCallback.get_current_confidence_threshold`
(src/cat_detector_callback.py lines 103-110): picks between the two fixed
constants. -/
def cb_get_current_confidence_threshold (is_window_open : Bool) : ℚ :=
  if is_window_open then min_confidence_open else min_confidence_closed

/-- One Hailo detection as consumed by the frame callbacks: its label, its
confidence and its bounding box edges along x. -/
structure Detection where
  label : String
  confidence : ℚ
  xmin : ℚ
  xmax : ℚ

/-- `center_x = (float(bbox.xmin) + float(bbox.xmax)) / 2`
(src/cat_detector.py line 258). -/
def center_x (d : Detection) : ℚ := (d.xmin + d.xmax) / 2

/-- `CatDetectorApp.is_within_roi(x_pos, width)` (src/cat_detector.py lines
294-309): normalizes and checks against the boundaries. -/
def is_within_roi (left_boundary right_boundary : ℚ) (x_pos width : ℚ) : Bool :=
  decide (left_boundary ≤ x_pos / width) && decide (x_pos / width ≤ right_boundary)

/-- One iteration of the detection loop of `CatDetectorApp.process_frame`
(src/cat_detector.py lines 246-262) on the accumulator
`(cat_detected_in_roi, any_cat_detected, max_confidence, max_confidence_any)`. -/
def process_frame_step (thr left_boundary right_boundary width : ℚ)
    (acc : Bool × Bool × ℚ × ℚ) (d : Detection) : Bool × Bool × ℚ × ℚ :=
  if d.label == "cat" && decide (thr ≤ d.confidence) then
    if is_within_roi left_boundary right_boundary (center_x d) width then
      (true, true, max acc.2.2.1 d.confidence, max acc.2.2.2 d.confidence)
    else (acc.1, true, acc.2.2.1, max acc.2.2.2 d.confidence)
  else acc

/-- The detection loop of `CatDetectorApp.process_frame`, iterated over the
detection list from a given accumulator. -/
def process_frame_go (thr left_boundary right_boundary width : ℚ)
    (acc : Bool × Bool × ℚ × ℚ) : List Detection → Bool × Bool × ℚ × ℚ
  | [] => acc
  | d :: rest =>
    process_frame_go thr left_boundary right_boundary width
      (process_frame_step thr left_boundary right_boundary width acc d) rest

/-- The per-detection loop of `CatDetectorApp.process_frame`
(src/cat_detector.py lines 246-262) over the detection list.  Returns
`(cat_detected_in_roi, any_cat_detected, max_confidence, max_confidence_any)`
with the same initial values as the source. -/
def process_frame_scan (thr left_boundary right_boundary width : ℚ)
    (dets : List Detection) : Bool × Bool × ℚ × ℚ :=
  process_frame_go thr left_boundary right_boundary width
    (false, false, 0, 0) dets

/-- One iteration of the detection loop of `app_callback`
(src/headless_detection.py lines 184-194) on `(cat_detected,
max_confidence)`: no region-of-interest check. -/
def app_callback_step (thr : ℚ) (acc : Bool × ℚ) (d : Detection) : Bool × ℚ :=
  if d.label == "cat" && decide (thr ≤ d.confidence) then
    (true, max acc.2 d.confidence)
  else acc

/-- The detection loop of `app_callback`, iterated from a given
accumulator. -/
def app_callback_go (thr : ℚ) (acc : Bool × ℚ) : List Detection → Bool × ℚ
  | [] => acc
  | d :: rest => app_callback_go thr (app_callback_step thr acc d) rest

/-- The per-detection loop of `app_callback` (src/headless_detection.py lines
184-194) over the detection list.  Returns `(cat_detected, max_confidence)`. -/
def app_callback_scan (thr : ℚ) (dets : List Detection) : Bool × ℚ :=
  app_callback_go thr (false, 0) dets

/-- `update_detection_filter(cat_detected, current_time)` — identical in
src/cat_detector.py lines 311-334 and src/cat_detector_callback.py lines
112-128: prune entries with `current_time - t >= W`, append `current_time`
when the frame qualifies, report presence iff the list is non-empty.
Returns the new `recent_detections` list and the boolean returned. -/
def update_detection_filter (W : ℤ) (cat_detected : Bool) (now : ℤ)
    (recent_detections : List ℤ) : List ℤ × Bool :=
  let pruned := recent_detections.filter (fun t => decide (now - t < W))
  let recent' := if cat_detected then pruned ++ [now] else pruned
  (recent', decide (recent' ≠ []))

/-- Outputs of a sequence of `update_detection_filter` calls: each list item
is `(current_time, cat_detected)` for one call, in order. -/
def runFilter (W : ℤ) (s : List ℤ) : List (ℤ × Bool) → List Bool
  | [] => []
  | (t, q) :: rest =>
    let r := update_detection_filter W q t s
    r.2 :: runFilter W r.1 rest

/-- The `recent_detections` list after a sequence of calls. -/
def filterState (W : ℤ) (s : List ℤ) (calls : List (ℤ × Bool)) : List ℤ :=
  calls.foldl (fun st c => (update_detection_filter W c.2 c.1 st).1) s

/-- The per-run presence-timer state of `CatDetectorApp`
(src/cat_detector.py): the window controller plus
`current_detection_time` / `current_no_detection_time`
(`last_cat_time` / `last_no_cat_time` in cat_detector_callback.py —
the two classes run the same algorithm over the same fields). -/
structure DetState where
  wc : WCState
  current_detection_time : Option ℤ
  current_no_detection_time : Option ℤ
deriving DecidableEq, Repr

/-- Detector state at startup: fresh `WindowController`, both timers `None`. -/
def initDetState : DetState :=
  { wc := initWCState
    current_detection_time := none
    current_no_detection_time := none }

/-- `CatDetectorApp.process_cat_detection` (src/cat_detector.py lines
336-397), which is also the algorithm of
`HeadlessCatDetectorCallback.process_cat_detection`
(src/cat_detector_callback.py lines 130-174): early return when automatic
control is off; otherwise start/keep the matching timer, clear the other,
and request an open (resp. close) once the dwell reaches the threshold.
`wireOk` is the outcome of the at most one subprocess call made via
`set_window_position`.  Returns the new state and the boolean returned by
the `set_window_position` call (`false` when no call was made). -/
def process_cat_detection (wireOk filtered_cat_present : Bool) (now : ℤ)
    (s : DetState) : DetState × Bool :=
  if s.wc.manual_mode then (s, false)
  else if filtered_cat_present then
    let det := s.current_detection_time.getD now
    let s1 : DetState :=
      { s with
          current_detection_time := some det
          current_no_detection_time := none }
    if required_detection_time ≤ now - det then
      let r := set_window_position wireOk true false now s1.wc
      ({ s1 with wc := r.st }, r.ret)
    else (s1, false)
  else
    let nod := s.current_no_detection_time.getD now
    let s1 : DetState :=
      { s with
          current_no_detection_time := some nod
          current_detection_time := none }
    if required_no_detection_time ≤ now - nod then
      let r := set_window_position wireOk false false now s1.wc
      ({ s1 with wc := r.st }, r.ret)
    else (s1, false)

/-- One environment step for an invariant run: optionally flip `manual_mode`
(the Telegram `disable_auto_control` / `enable_auto_control` toggles, which
touch only that flag), then one `process_cat_detection` call. -/
structure DetInput where
  setManual : Option Bool
  presence : Bool
  now : ℤ
  wireOk : Bool

/-- Apply one `DetInput`, returning the new state and the boolean the
`set_window_position` call (if any) returned. -/
def detStepOut (s : DetState) (i : DetInput) : DetState × Bool :=
  let wc :=
    match i.setManual with
    | none => s.wc
    | some b => { s.wc with manual_mode := b }
  process_cat_detection i.wireOk i.presence i.now { s with wc := wc }

/-- Apply one `DetInput`, keeping the state only. -/
def detStep (s : DetState) (i : DetInput) : DetState :=
  (detStepOut s i).1

/-- Fold a list of `DetInput`s from a state. -/
def runDet (s : DetState) (is : List DetInput) : DetState :=
  is.foldl detStep s

/-- The booleans returned along a run of `DetInput`s, in order. -/
def runDetOuts (s : DetState) : List DetInput → List Bool
  | [] => []
  | i :: rest => (detStepOut s i).2 :: runDetOuts (detStepOut s i).1 rest

/-- An environment step of the qualifying-dwell scenario: debounced presence
`true`, no manual toggle, reliable transport. -/
def presenceInput (t : ℤ) : DetInput :=
  { setManual := none, presence := true, now := t, wireOk := true }

/-- Detector state during a qualifying dwell, before the open fires: fresh
controller, presence timer anchored at `t0`. -/
def preOpen (t0 : ℤ) : DetState :=
  { wc := initWCState
    current_detection_time := some t0
    current_no_detection_time := none }

/-- Detector state after the open fired at time `tk` during a dwell anchored
at `t0`. -/
def postOpen (t0 tk : ℤ) : DetState :=
  { wc :=
      { current_angle := OPEN_ANGLE
        target_angle := OPEN_ANGLE
        current_lock_angle := LOCK_OPEN
        target_lock_angle := LOCK_OPEN
        last_command_time := some tk
        manual_mode := false
        is_window_open := true
        is_window_locked := false }
    current_detection_time := some t0
    current_no_detection_time := none }

/-! ### The Modbus wire sequences of src/cat_window.py -/

/-- One Modbus round-trip as seen on the wire: a register write carrying the
value and whether the transport accepted it, or a register read carrying the
reply (`none` = no response / exception). -/
inductive ModbusEvent where
  | writeReg : ℕ → ℕ → Bool → ModbusEvent
  | readReg : ℕ → Option ℕ → ModbusEvent
deriving DecidableEq, Repr

/-- The transport, as an oracle: whether a write to a given address with a
given value succeeds, and what a read of a given address returns.  The polling
loop of `set_window_angle` is modelled with a time-invariant oracle, so one
read decides it: the loop succeeds iff some read returns an in-tolerance
angle before the timeout, which under a fixed reply happens iff the first
read is in tolerance. -/
structure ModbusClient where
  writeOk : ℕ → ℕ → Bool
  readRes : ℕ → Option ℕ

/-- `set_window_angle(client, angle)` (src/cat_window.py lines 6-72): write
the setpoint `angle*10` to register 0, then poll register 1 until the read
value is within 0.1° (1 deci-degree) of the setpoint.  Angles here are whole
degrees, so `int(round(angle*10)) = angle*10`.  Returns the boolean result
and the wire events in order. -/
def cw_set_window_angle (c : ModbusClient) (angle : ℕ) :
    Bool × List ModbusEvent :=
  let reg := angle * 10
  if c.writeOk 0 reg then
    match c.readRes 1 with
    | none => (false, [ModbusEvent.writeReg 0 reg true, ModbusEvent.readReg 1 none])
    | some v =>
      (decide ((v : ℤ) - reg ≤ 1 ∧ (reg : ℤ) - v ≤ 1),
        [ModbusEvent.writeReg 0 reg true, ModbusEvent.readReg 1 (some v)])
  else (false, [ModbusEvent.writeReg 0 reg false])

/-- `set_lock_angle(client, angle)` (src/cat_window.py lines 74-132): write
the setpoint `angle*10` to register 2, wait, read the status register 3 once
and accept when within 5° (50 deci-degrees). -/
def cw_set_lock_angle (c : ModbusClient) (angle : ℕ) :
    Bool × List ModbusEvent :=
  let reg := angle * 10
  if c.writeOk 2 reg then
    match c.readRes 3 with
    | none => (false, [ModbusEvent.writeReg 2 reg true, ModbusEvent.readReg 3 none])
    | some v =>
      (decide ((v : ℤ) - reg ≤ 50 ∧ (reg : ℤ) - v ≤ 50),
        [ModbusEvent.writeReg 2 reg true, ModbusEvent.readReg 3 (some v)])
  else (false, [ModbusEvent.writeReg 2 reg false])

/-- `lock_window(client)` = `set_lock_angle(client, 0)`. -/
def cw_lock_window (c : ModbusClient) : Bool × List ModbusEvent :=
  cw_set_lock_angle c 0

/-- `unlock_window(client)` = `set_lock_angle(client, 90)`. -/
def cw_unlock_window (c : ModbusClient) : Bool × List ModbusEvent :=
  cw_set_lock_angle c 90

/-- `open_window(client)` (src/cat_window.py lines 158-178): unlock first;
only if the unlock reports success, move the leaf to 120°. -/
def cw_open_window (c : ModbusClient) : Bool × List ModbusEvent :=
  let u := cw_unlock_window c
  if u.1 then
    let w := cw_set_window_angle c 120
    (w.1, u.2 ++ w.2)
  else (false, u.2)

/-- `close_window(client)` (src/cat_window.py lines 180-203): move the leaf
to 77° first; only if that reports success, engage the lock. -/
def cw_close_window (c : ModbusClient) : Bool × List ModbusEvent :=
  let w := cw_set_window_angle c 77
  if w.1 then
    let l := cw_lock_window c
    (l.1, w.2 ++ l.2)
  else (false, w.2)

/-- Event class: a write to the window-leaf setpoint register (address 0). -/
def isWindowWrite : ModbusEvent → Bool
  | ModbusEvent.writeReg a _ _ => a == 0
  | _ => false

/-- Event class: a write engaging the lock (address 2, setpoint 0°). -/
def isLockEngageWrite : ModbusEvent → Bool
  | ModbusEvent.writeReg a v _ => a == 2 && v == 0
  | _ => false

/-- Event class: a status read confirming the lock reached the unlocked
position (register 3 within 5° of 90°, in deci-degrees). -/
def isUnlockConfirm : ModbusEvent → Bool
  | ModbusEvent.readReg a (some v) => a == 3 && decide (850 ≤ v ∧ v ≤ 950)
  | _ => false

/-- Event class: a position read confirming the leaf reached the closed angle
(register 1 within 0.1° of 77°, in deci-degrees). -/
def isLeafClosedConfirm : ModbusEvent → Bool
  | ModbusEvent.readReg a (some v) => a == 1 && decide (769 ≤ v ∧ v ≤ 771)
  | _ => false

/-- `onlyAfter conf evt tr = true` iff no `evt` event occurs in `tr` before
the first `conf` event (so every `evt` is preceded by a confirmation). -/
def onlyAfter (conf evt : ModbusEvent → Bool) : List ModbusEvent → Bool
  | [] => true
  | e :: rest => if evt e then false else if conf e then true else onlyAfter conf evt rest

/-! ### Derived qualification predicates and concrete inputs used in the
statements -/

/-- A detection qualifies for window control in
`CatDetectorApp.process_frame`: target class, confidence at (or above) the
effective threshold, bounding-box center inside the region of interest. -/
def qualifiesROI (thr left_boundary right_boundary width : ℚ)
    (d : Detection) : Bool :=
  d.label == "cat" && decide (thr ≤ d.confidence) &&
    is_within_roi left_boundary right_boundary (center_x d) width

/-- A detection qualifies in `app_callback` (src/headless_detection.py):
target class and confidence only. -/
def qualifiesAny (thr : ℚ) (d : Detection) : Bool :=
  d.label == "cat" && decide (thr ≤ d.confidence)

/-- A confident cat detection whose bounding-box center (0.1 of the frame
width) lies left of the default region of interest `[0.4, 0.6]`. -/
def strayCat : Detection :=
  { label := "cat", confidence := 9/10, xmin := 0, xmax := 1/5 }

/-- A controller state whose last successful command was stamped at time 0. -/
def stampedWCState : WCState :=
  { initWCState with last_command_time := some 0 }

/-- A confident cat detection whose bounding-box center (0.5 of the frame
width) lies inside the default region of interest `[0.4, 0.6]`. -/
def inROICat : Detection :=
  { label := "cat", confidence := 4/5, xmin := 2/5, xmax := 3/5 }

/-! ## Helper lemmas -/

theorem set_window_position_manual_mode (wireOk should_be_open manual : Bool)
    (now : ℤ) (s : WCState) :
    (set_window_position wireOk should_be_open manual now s).st.manual_mode
      = (s.manual_mode || (manual && !cooldownBlocked s now)) := by
  obtain ⟨ca, ta, cla, tla, lct, mm, iwo, iwl⟩ := s
  unfold set_window_position
  cases hcb : cooldownBlocked ⟨ca, ta, cla, tla, lct, mm, iwo, iwl⟩ now <;>
    cases manual <;> cases should_be_open <;> cases iwo <;> cases wireOk <;>
    simp [hcb]

theorem set_lock_position_manual_mode (wireOk should_be_locked manual : Bool)
    (now : ℤ) (s : WCState) :
    (set_lock_position wireOk should_be_locked manual now s).st.manual_mode
      = (s.manual_mode || (manual && !cooldownBlocked s now)) := by
  obtain ⟨ca, ta, cla, tla, lct, mm, iwo, iwl⟩ := s
  unfold set_lock_position
  cases hcb : cooldownBlocked ⟨ca, ta, cla, tla, lct, mm, iwo, iwl⟩ now <;>
    cases manual <;> cases should_be_locked <;> cases iwl <;> cases wireOk <;>
    simp [hcb]

theorem set_window_angle_tail_manual_mode (wireWin : Bool) (angle : ℚ)
    (now : ℤ) (s2 : WCState) (ops : List WireCmd) :
    (set_window_angle_tail wireWin angle now s2 ops).st.manual_mode
      = s2.manual_mode := by
  unfold set_window_angle_tail
  split_ifs <;> rfl

theorem set_window_angle_manual_mode (wireLock wireWin : Bool) (angle : ℚ)
    (manual : Bool) (now nowInner : ℤ) (s : WCState) :
    (set_window_angle wireLock wireWin angle manual now nowInner s).st.manual_mode
      = (s.manual_mode || (manual && !cooldownBlocked s now)) := by
  obtain ⟨ca, ta, cla, tla, lct, mm, iwo, iwl⟩ := s
  unfold set_window_angle
  cases hcb : cooldownBlocked ⟨ca, ta, cla, tla, lct, mm, iwo, iwl⟩ now <;>
    cases manual <;> cases iwl <;>
    simp [hcb, set_window_angle_tail_manual_mode, set_lock_position_manual_mode]
  all_goals split_ifs <;>
    simp [set_window_angle_tail_manual_mode, set_lock_position_manual_mode]

/-! ## Claim theorems -/

/-- C6: any command (`set_window_position`, `set_lock_position`,
`set_window_angle`) issued strictly less than `command_cooldown` (5 s) after
a previous successful command stamped in `last_command_time` returns `false`
(not an error), performs no wire transaction, and leaves the state
unchanged. -/
theorem cooldown_rejects_commands (s : WCState) (t now nowInner : ℤ)
    (w1 w2 b m : Bool) (angle : ℚ)
    (hlast : s.last_command_time = some t)
    (hlt : now - t < command_cooldown) :
    set_window_position w1 b m now s = ⟨s, false, []⟩ ∧
    set_lock_position w1 b m now s = ⟨s, false, []⟩ ∧
    set_window_angle w1 w2 angle m now nowInner s = ⟨s, false, []⟩ := by
  have hcb : cooldownBlocked s now = true := by
    simp [cooldownBlocked, hlast]
    exact hlt
  refine ⟨?_, ?_, ?_⟩ <;>
    simp [set_window_position, set_lock_position, set_window_angle, hcb]

/-- Witness for C6 at a concrete state and time: last command at 0, retry at
3 s < 5 s. -/
theorem cooldown_rejects_commands_witness :
    set_window_position true true true 3 stampedWCState
        = ⟨stampedWCState, false, []⟩ ∧
    set_lock_position true true true 3 stampedWCState
        = ⟨stampedWCState, false, []⟩ ∧
    set_window_angle true true 100 true 3 3 stampedWCState
        = ⟨stampedWCState, false, []⟩ :=
  cooldown_rejects_commands stampedWCState 0 3 3 true true true true 100
    rfl (by decide)

/-- C10: a `manual=True` call to any of the three commands sets
`manual_mode` exactly when the cooldown guard passes — a call rejected by
the cooldown leaves `manual_mode` unchanged, while a call whose wire
execution fails or (for `set_window_angle`) whose angle is out of range
still enters manual mode, for every starting state and wire outcome. -/
theorem manual_mode_set_iff_cooldown_passes (s : WCState)
    (now nowInner : ℤ) (w1 w2 b : Bool) (angle : ℚ) :
    ((set_window_position w1 b true now s).st.manual_mode
        = if cooldownBlocked s now then s.manual_mode else true) ∧
    ((set_lock_position w1 b true now s).st.manual_mode
        = if cooldownBlocked s now then s.manual_mode else true) ∧
    ((set_window_angle w1 w2 angle true now nowInner s).st.manual_mode
        = if cooldownBlocked s now then s.manual_mode else true) := by
  refine ⟨?_, ?_, ?_⟩
  · rw [set_window_position_manual_mode]
    cases cooldownBlocked s now <;> simp
  · rw [set_lock_position_manual_mode]
    cases cooldownBlocked s now <;> simp
  · rw [set_window_angle_manual_mode]
    cases cooldownBlocked s now <;> simp

/-- C2: with no cooldown active, an automatic command whose target equals
the current state returns `false` with no wire transaction, while a manual
command with the same target always sends exactly the corresponding wire
command — for both the window and the lock. -/
theorem idempotent_auto_noop_manual_executes (s : WCState) (now : ℤ)
    (w : Bool) (hcb : cooldownBlocked s now = false) :
    set_window_position w s.is_window_open false now s = ⟨s, false, []⟩ ∧
    (set_window_position w s.is_window_open true now s).wire
        = [if s.is_window_open then WireCmd.apri else WireCmd.chiudi] ∧
    set_lock_position w s.is_window_locked false now s = ⟨s, false, []⟩ ∧
    (set_lock_position w s.is_window_locked true now s).wire
        = [if s.is_window_locked then WireCmd.blocca else WireCmd.sblocca] := by
  obtain ⟨ca, ta, cla, tla, lct, mm, iwo, iwl⟩ := s
  cases iwo <;> cases iwl <;> cases w <;>
    simp_all [set_window_position, set_lock_position]

/-- Witness for C2 at the freshly initialized controller at time 0. -/
theorem idempotent_auto_noop_manual_executes_witness :
    set_window_position true initWCState.is_window_open false 0 initWCState
        = ⟨initWCState, false, []⟩ ∧
    (set_window_position true initWCState.is_window_open true 0 initWCState).wire
        = [if initWCState.is_window_open then WireCmd.apri else WireCmd.chiudi] ∧
    set_lock_position true initWCState.is_window_locked false 0 initWCState
        = ⟨initWCState, false, []⟩ ∧
    (set_lock_position true initWCState.is_window_locked true 0 initWCState).wire
        = [if initWCState.is_window_locked then WireCmd.blocca
           else WireCmd.sblocca] :=
  idempotent_auto_noop_manual_executes initWCState 0 true (by decide)

/-- C1 counterexample: a manual open command whose wire execution fails does
mutate the state — starting from the initial state (`manual_mode = false`),
`set_window_position(True, manual=True)` with a failing wire returns `false`
but leaves `manual_mode = true`, so the ActuatorState is not left exactly as
it was. -/
theorem wire_failure_mutates_manual_mode :
    (set_window_position false true true 0 initWCState).ret = false ∧
    initWCState.manual_mode = false ∧
    (set_window_position false true true 0 initWCState).st.manual_mode
        = true := by
  decide

/-- C1 amended: when the wire command fails, `set_window_position` and
`set_lock_position` return `false` and leave `current_angle`,
`target_angle`, `current_lock_angle`, `target_lock_angle`,
`is_window_open`, `is_window_locked` and `last_command_time` unchanged; the
only possible mutation is `manual_mode`, which is set to `true` by a manual
call that passes the cooldown guard (even though the wire failed). -/
theorem wire_failure_preserves_state_except_manual (s : WCState) (now : ℤ)
    (b m : Bool) :
    ((set_window_position false b m now s).ret = false ∧
      (set_window_position false b m now s).st
        = { s with manual_mode :=
              if cooldownBlocked s now then s.manual_mode
              else (m || s.manual_mode) }) ∧
    ((set_lock_position false b m now s).ret = false ∧
      (set_lock_position false b m now s).st
        = { s with manual_mode :=
              if cooldownBlocked s now then s.manual_mode
              else (m || s.manual_mode) }) := by
  obtain ⟨ca, ta, cla, tla, lct, mm, iwo, iwl⟩ := s
  cases hcb : cooldownBlocked ⟨ca, ta, cla, tla, lct, mm, iwo, iwl⟩ now <;>
    cases m <;> cases b <;> cases iwo <;> cases iwl <;> cases mm <;>
    simp_all [set_window_position, set_lock_position]

/-- C5 counterexample: in `HeadlessCatDetectorCallback` the open-state
threshold is the fixed constant 0.5, which is not the closed-state threshold
0.7 reduced by the factor 0.8 (that would be 0.56). -/
theorem cb_threshold_not_eighty_percent :
    cb_get_current_confidence_threshold true = 1/2 ∧
    cb_get_current_confidence_threshold false * (8/10) = 14/25 ∧
    cb_get_current_confidence_threshold true
        ≠ cb_get_current_confidence_threshold false * (8/10) := by
  refine ⟨rfl, ?_, ?_⟩ <;>
    norm_num [cb_get_current_confidence_threshold, min_confidence_closed,
      min_confidence_open]

/-- C5 amended: in `CatDetectorApp` the open-state threshold equals the
closed-state threshold times 0.8 (strictly lower whenever the threshold is
positive); in `HeadlessCatDetectorCallback` the open-state threshold is the
separate constant 0.5 and the closed-state threshold 0.7, so it is strictly
lower but not related by the 0.8 factor. -/
theorem adaptive_threshold_amended (m : ℚ) :
    get_current_confidence_threshold m true = m * (8/10) ∧
    (0 < m → get_current_confidence_threshold m true
        < get_current_confidence_threshold m false) ∧
    cb_get_current_confidence_threshold true = min_confidence_open ∧
    cb_get_current_confidence_threshold false = min_confidence_closed ∧
    cb_get_current_confidence_threshold true
        < cb_get_current_confidence_threshold false := by
  refine ⟨rfl, ?_, rfl, rfl, ?_⟩
  · intro hm
    have h1 : get_current_confidence_threshold m true = m * (8/10) := rfl
    have h2 : get_current_confidence_threshold m false = m := rfl
    rw [h1, h2]
    linarith
  · norm_num [cb_get_current_confidence_threshold, min_confidence_closed,
      min_confidence_open]

/-- Witness for C5 (amended) at the default closed-state threshold 0.7. -/
theorem adaptive_threshold_amended_witness :
    get_current_confidence_threshold (7/10) true
        < get_current_confidence_threshold (7/10) false ∧
    cb_get_current_confidence_threshold true
        < cb_get_current_confidence_threshold false :=
  ⟨(adaptive_threshold_amended (7/10)).2.1 (by norm_num),
    (adaptive_threshold_amended (7/10)).2.2.2.2⟩

/-- C4 counterexample: a confident cat detection whose center lies outside
the region of interest does not qualify in `CatDetectorApp.process_frame`,
but in `app_callback` (src/headless_detection.py) it sets `cat_detected`
(which feeds the presence window used for window control): the headless
surface performs no ROI check. -/
theorem headless_ignores_roi :
    (process_frame_scan (7/10) (2/5) (3/5) 1 [strayCat]).1 = false ∧
    (app_callback_scan (7/10) [strayCat]).1 = true ∧
    qualifiesROI (7/10) (2/5) (3/5) 1 strayCat = false ∧
    qualifiesAny (7/10) strayCat = true := by
  refine ⟨?_, ?_, ?_, ?_⟩ <;>
    norm_num [process_frame_scan, app_callback_scan, process_frame_go,
      process_frame_step, app_callback_go, app_callback_step,
      qualifiesROI, qualifiesAny, is_within_roi, center_x, strayCat]

theorem process_frame_step_fst (thr lb rb width : ℚ)
    (acc : Bool × Bool × ℚ × ℚ) (d : Detection) :
    (process_frame_step thr lb rb width acc d).1
      = (acc.1 || qualifiesROI thr lb rb width d) := by
  cases h1 : (d.label == "cat" && decide (thr ≤ d.confidence)) <;>
    cases h2 : is_within_roi lb rb (center_x d) width <;>
    simp [process_frame_step, qualifiesROI, h1, h2]

theorem process_frame_step_max (thr lb rb width : ℚ)
    (acc : Bool × Bool × ℚ × ℚ) (d : Detection) :
    (process_frame_step thr lb rb width acc d).2.2.1
      = if qualifiesROI thr lb rb width d then max acc.2.2.1 d.confidence
        else acc.2.2.1 := by
  cases h1 : (d.label == "cat" && decide (thr ≤ d.confidence)) <;>
    cases h2 : is_within_roi lb rb (center_x d) width <;>
    simp [process_frame_step, qualifiesROI, h1, h2]

theorem process_frame_go_fst (thr lb rb width : ℚ) (dets : List Detection) :
    ∀ acc : Bool × Bool × ℚ × ℚ,
    (process_frame_go thr lb rb width acc dets).1
      = (acc.1 || dets.any (qualifiesROI thr lb rb width)) := by
  induction dets with
  | nil => intro acc; simp [process_frame_go]
  | cons d rest ih =>
    intro acc
    rw [process_frame_go, ih, process_frame_step_fst]
    simp [Bool.or_assoc]

theorem process_frame_go_max_mono (thr lb rb width : ℚ)
    (dets : List Detection) :
    ∀ acc : Bool × Bool × ℚ × ℚ,
    acc.2.2.1 ≤ (process_frame_go thr lb rb width acc dets).2.2.1 := by
  induction dets with
  | nil => intro acc; simp [process_frame_go]
  | cons d rest ih =>
    intro acc
    rw [process_frame_go]
    refine le_trans ?_ (ih _)
    rw [process_frame_step_max]
    split <;> simp

theorem process_frame_go_max_le (thr lb rb width : ℚ) (dets : List Detection) :
    ∀ acc : Bool × Bool × ℚ × ℚ, ∀ d ∈ dets,
    qualifiesROI thr lb rb width d = true →
    d.confidence ≤ (process_frame_go thr lb rb width acc dets).2.2.1 := by
  induction dets with
  | nil => intro acc d hd; simp at hd
  | cons e rest ih =>
    intro acc d hd hq
    rw [process_frame_go]
    rcases List.mem_cons.mp hd with h | h
    · subst h
      refine le_trans ?_ (process_frame_go_max_mono thr lb rb width rest _)
      rw [process_frame_step_max, hq]
      simp
    · exact ih _ d h hq

theorem process_frame_go_max_attained (thr lb rb width : ℚ)
    (dets : List Detection) :
    ∀ acc : Bool × Bool × ℚ × ℚ,
    (process_frame_go thr lb rb width acc dets).2.2.1 = acc.2.2.1 ∨
      ∃ d ∈ dets, qualifiesROI thr lb rb width d = true ∧
        (process_frame_go thr lb rb width acc dets).2.2.1 = d.confidence := by
  induction dets with
  | nil => intro acc; left; simp [process_frame_go]
  | cons e rest ih =>
    intro acc
    rw [process_frame_go]
    rcases ih (process_frame_step thr lb rb width acc e) with h | ⟨d, hd, hq, hv⟩
    · rw [process_frame_step_max] at h
      by_cases hq : qualifiesROI thr lb rb width e = true
      · rw [if_pos hq] at h
        rcases max_choice acc.2.2.1 e.confidence with hm | hm
        · left; rw [h, hm]
        · right; exact ⟨e, List.mem_cons_self e rest, hq, by rw [h, hm]⟩
      · left; rw [h, if_neg hq]
    · right; exact ⟨d, List.mem_cons_of_mem e hd, hq, hv⟩

theorem app_callback_step_fst (thr : ℚ) (acc : Bool × ℚ) (d : Detection) :
    (app_callback_step thr acc d).1 = (acc.1 || qualifiesAny thr d) := by
  cases h1 : (d.label == "cat" && decide (thr ≤ d.confidence)) <;>
    simp [app_callback_step, qualifiesAny, h1]

theorem app_callback_go_fst (thr : ℚ) (dets : List Detection) :
    ∀ acc : Bool × ℚ,
    (app_callback_go thr acc dets).1 = (acc.1 || dets.any (qualifiesAny thr)) := by
  induction dets with
  | nil => intro acc; simp [app_callback_go]
  | cons d rest ih =>
    intro acc
    rw [app_callback_go, ih, app_callback_step_fst]
    simp [Bool.or_assoc]

/-- C4 amended: in `CatDetectorApp.process_frame`, a detection counts toward
the window-control presence signal iff its label is the target class, its
confidence is at least the effective threshold, and its bounding-box center
lies within the region of interest; the reported confidence is the maximum
over such detections (an upper bound that is 0 or attained by a qualifying
detection).  In `app_callback` (src/headless_detection.py), however, the ROI
is not checked: a detection qualifies iff its label and confidence alone
pass. -/
theorem frame_qualification_amended (thr lb rb width : ℚ)
    (dets : List Detection) :
    (process_frame_scan thr lb rb width dets).1
        = dets.any (qualifiesROI thr lb rb width) ∧
    (∀ d ∈ dets, qualifiesROI thr lb rb width d = true →
        d.confidence ≤ (process_frame_scan thr lb rb width dets).2.2.1) ∧
    ((process_frame_scan thr lb rb width dets).2.2.1 = 0 ∨
      ∃ d ∈ dets, qualifiesROI thr lb rb width d = true ∧
        (process_frame_scan thr lb rb width dets).2.2.1 = d.confidence) ∧
    (app_callback_scan thr dets).1 = dets.any (qualifiesAny thr) := by
  refine ⟨?_, ?_, ?_, ?_⟩
  · rw [process_frame_scan, process_frame_go_fst]
    simp
  · intro d hd hq
    exact process_frame_go_max_le thr lb rb width dets _ d hd hq
  · exact process_frame_go_max_attained thr lb rb width dets _
  · rw [app_callback_scan, app_callback_go_fst]
    simp

/-- Witness for C4 (amended): a qualifying in-ROI detection of confidence
0.8 bounds the reported maximum from below. -/
theorem frame_qualification_amended_witness :
    inROICat.confidence
      ≤ (process_frame_scan (7/10) (2/5) (3/5) 1 [inROICat]).2.2.1 :=
  (frame_qualification_amended (7/10) (2/5) (3/5) 1 [inROICat]).2.1 inROICat
    (List.mem_singleton.mpr rfl)
    (by norm_num [qualifiesROI, is_within_roi, center_x, inROICat])

theorem cw_open_window_ordering (c : ModbusClient) :
    onlyAfter isUnlockConfirm isWindowWrite (cw_open_window c).2 = true ∧
    (cw_open_window c).2.countP isWindowWrite
        = (if (cw_unlock_window c).1 then 1 else 0) := by
  unfold cw_open_window cw_unlock_window cw_set_lock_angle cw_set_window_angle
  cases h1 : c.writeOk 2 (90 * 10)
  · simp [h1, onlyAfter, isWindowWrite, isUnlockConfirm,
      List.countP_cons, List.countP_nil]
  · cases h2 : c.readRes 3
    · simp [h1, h2, onlyAfter, isWindowWrite, isUnlockConfirm,
        List.countP_cons, List.countP_nil]
    case some v3 =>
      cases h4 : c.writeOk 0 (120 * 10) <;> cases h5 : c.readRes 1 <;>
        simp [h1, h2, h4, h5, onlyAfter, isWindowWrite, isUnlockConfirm,
          List.countP_cons, List.countP_nil] <;>
        split_ifs <;>
        simp_all [onlyAfter, isWindowWrite, isUnlockConfirm,
          List.countP_cons, List.countP_nil] <;>
        omega

theorem cw_close_window_ordering (c : ModbusClient) :
    onlyAfter isLeafClosedConfirm isLockEngageWrite (cw_close_window c).2 = true ∧
    (cw_close_window c).2.countP isLockEngageWrite
        = (if (cw_set_window_angle c 77).1 then 1 else 0) := by
  unfold cw_close_window cw_lock_window cw_set_lock_angle cw_set_window_angle
  cases h1 : c.writeOk 0 (77 * 10)
  · simp [h1, onlyAfter, isLockEngageWrite, isLeafClosedConfirm,
      List.countP_cons, List.countP_nil]
  · cases h2 : c.readRes 1
    · simp [h1, h2, onlyAfter, isLockEngageWrite, isLeafClosedConfirm,
        List.countP_cons, List.countP_nil]
    case some v1 =>
      cases h4 : c.writeOk 2 0 <;> cases h5 : c.readRes 3 <;>
        simp [h1, h2, h4, h5, onlyAfter, isLockEngageWrite, isLeafClosedConfirm,
          List.countP_cons, List.countP_nil] <;>
        split_ifs <;>
        simp_all [onlyAfter, isLockEngageWrite, isLeafClosedConfirm,
          List.countP_cons, List.countP_nil] <;>
        omega

/-- C7: for every transport oracle, in `open_window` the window-leaf move
register write occurs only after the unlock-confirmation read, and occurs at
all (exactly once) iff the unlock reported success; in `close_window` the
lock-engage register write occurs only after the read confirming the leaf at
the closed angle, and occurs at all (exactly once) iff the leaf move
reported success. -/
theorem wire_sequence_ordering (c : ModbusClient) :
    onlyAfter isUnlockConfirm isWindowWrite (cw_open_window c).2 = true ∧
    (cw_open_window c).2.countP isWindowWrite
        = (if (cw_unlock_window c).1 then 1 else 0) ∧
    onlyAfter isLeafClosedConfirm isLockEngageWrite (cw_close_window c).2 = true ∧
    (cw_close_window c).2.countP isLockEngageWrite
        = (if (cw_set_window_angle c 77).1 then 1 else 0) :=
  ⟨(cw_open_window_ordering c).1, (cw_open_window_ordering c).2,
    (cw_close_window_ordering c).1, (cw_close_window_ordering c).2⟩

theorem process_cat_detection_timers (w p : Bool) (now : ℤ) (s : DetState)
    (h : s.current_detection_time = none ∨ s.current_no_detection_time = none) :
    (process_cat_detection w p now s).1.current_detection_time = none ∨
    (process_cat_detection w p now s).1.current_no_detection_time = none := by
  unfold process_cat_detection
  split_ifs <;>
    first
      | (simp_all; done)
      | (right;
          (by_cases hd :
            required_detection_time ≤ now - s.current_detection_time.getD now <;>
          simp [hd]);
          done)
      | (left;
          (by_cases hd :
            required_no_detection_time ≤ now - s.current_no_detection_time.getD now <;>
          simp [hd]);
          done)

/-- C9: starting from the initial state (both presence timers `None`), after
every `process_cat_detection` call of every run — for any sequence of
debounced-presence inputs, timestamps, wire outcomes and manual-mode
toggles — at most one of `current_detection_time` and
`current_no_detection_time` is non-null. -/
theorem presence_timers_mutually_exclusive (is : List DetInput) (n : ℕ) :
    (runDet initDetState (is.take n)).current_detection_time = none ∨
    (runDet initDetState (is.take n)).current_no_detection_time = none := by
  have key : ∀ (l : List DetInput) (s : DetState),
      (s.current_detection_time = none ∨ s.current_no_detection_time = none) →
      ((runDet s l).current_detection_time = none ∨
        (runDet s l).current_no_detection_time = none) := by
    intro l
    induction l with
    | nil => intro s h; simpa [runDet] using h
    | cons i rest ih =>
      intro s h
      rw [runDet, List.foldl_cons]
      exact ih (detStep s i)
        (process_cat_detection_timers i.wireOk i.presence i.now _ h)
  exact key (is.take n) initDetState (Or.inl rfl)

theorem det_first_step (t0 : ℤ) :
    detStepOut initDetState (presenceInput t0) = (preOpen t0, false) := by
  simp [detStepOut, presenceInput, process_cat_detection, initDetState,
    initWCState, preOpen, required_detection_time]

theorem det_pre_step (t0 t : ℤ) :
    detStepOut (preOpen t0) (presenceInput t)
      = if required_detection_time ≤ t - t0 then (postOpen t0 t, true)
        else (preOpen t0, false) := by
  by_cases hd : required_detection_time ≤ t - t0 <;>
    simp [detStepOut, presenceInput, process_cat_detection, preOpen, postOpen,
      initWCState, set_window_position, cooldownBlocked, hd]

theorem det_post_step (t0 tk t : ℤ) :
    detStepOut (postOpen t0 tk) (presenceInput t) = (postOpen t0 tk, false) := by
  by_cases hd : required_detection_time ≤ t - t0 <;>
    by_cases hc : t - tk < command_cooldown <;>
    simp [detStepOut, presenceInput, process_cat_detection, postOpen,
      set_window_position, cooldownBlocked, hd, hc]

theorem run_post (t0 tk : ℤ) (ts : List ℤ) :
    runDetOuts (postOpen t0 tk) (ts.map presenceInput)
        = List.replicate ts.length false ∧
    runDet (postOpen t0 tk) (ts.map presenceInput) = postOpen t0 tk := by
  induction ts with
  | nil => simp [runDetOuts, runDet]
  | cons t rest ih =>
    refine ⟨?_, ?_⟩ <;>
      simp [runDetOuts, runDet, List.foldl_cons, detStep, det_post_step,
        ih.1, ih.2, List.replicate_succ]
    · exact ih.2

theorem run_pre_count (t0 : ℤ) (ts : List ℤ) :
    (runDetOuts (preOpen t0) (ts.map presenceInput)).count true
      = if ∃ t ∈ ts, required_detection_time ≤ t - t0 then 1 else 0 := by
  induction ts with
  | nil => simp [runDetOuts]
  | cons t rest ih =>
    by_cases hd : required_detection_time ≤ t - t0
    · have hpost := run_post t0 t rest
      simp [runDetOuts, det_pre_step, hd, hpost.1, List.count_replicate]
    · simp [runDetOuts, det_pre_step, hd, ih]

theorem run_det_shape (t0 : ℤ) (ts : List ℤ) :
    ∀ s : DetState, (s = preOpen t0 ∨ ∃ tk, s = postOpen t0 tk) →
    (runDet s (ts.map presenceInput) = preOpen t0 ∨
      ∃ tk, runDet s (ts.map presenceInput) = postOpen t0 tk) := by
  induction ts with
  | nil => intro s hs; simpa [runDet] using hs
  | cons t rest ih =>
    intro s hs
    rw [List.map_cons, runDet, List.foldl_cons]
    rcases hs with h | ⟨tk, h⟩
    · subst h
      by_cases hd : required_detection_time ≤ t - t0
      · exact ih _ (Or.inr ⟨t, by simp [detStep, det_pre_step, hd]⟩)
      · exact ih _ (Or.inl (by simp [detStep, det_pre_step, hd]))
    · subst h
      exact ih _ (Or.inr ⟨tk, by simp [detStep, det_post_step]⟩)

/-- C3: along any run in which debounced presence is continuously `true`
from time `t0` on (monotone timestamps, reliable wire, automatic control
enabled, window starting closed in the fresh initial state) and which lasts
at least `required_detection_time` (10 s), `set_window_position(True,
manual=False)` returns `true` exactly once, and the dwell anchor
`current_detection_time` stays `t0` at every point of the run (it is never
reset while presence remains true). -/
theorem single_open_per_dwell (t0 : ℤ) (rest : List ℤ)
    (hchain : List.Chain (fun a b => a ≤ b) t0 rest)
    (hreach : ∃ t ∈ rest, t0 + required_detection_time ≤ t) :
    (runDetOuts initDetState ((t0 :: rest).map presenceInput)).count true
        = 1 ∧
    ∀ n, 0 < n →
      (runDet initDetState
          (((t0 :: rest).map presenceInput).take n)).current_detection_time
        = some t0 := by
  constructor
  · have h1 : runDetOuts initDetState ((t0 :: rest).map presenceInput)
        = false :: runDetOuts (preOpen t0) (rest.map presenceInput) := by
      simp [runDetOuts, det_first_step]
    rw [h1, List.count_cons, run_pre_count]
    have hex : ∃ t ∈ rest, required_detection_time ≤ t - t0 := by
      obtain ⟨t, ht, hle⟩ := hreach
      exact ⟨t, ht, by omega⟩
    simp [hex]
  · intro n hn
    obtain ⟨m, rfl⟩ : ∃ m, n = m + 1 := ⟨n - 1, by omega⟩
    have h1 : ((t0 :: rest).map presenceInput).take (m + 1)
        = presenceInput t0 :: ((rest.take m).map presenceInput) := by
      simp [List.map_take]
    rw [h1, runDet, List.foldl_cons]
    have h2 : detStep initDetState (presenceInput t0) = preOpen t0 := by
      simp [detStep, det_first_step]
    rw [h2]
    rcases run_det_shape t0 (rest.take m) (preOpen t0) (Or.inl rfl) with h | ⟨tk, h⟩
    · rw [show List.foldl detStep (preOpen t0) ((rest.take m).map presenceInput)
          = runDet (preOpen t0) ((rest.take m).map presenceInput) from rfl, h]
      rfl
    · rw [show List.foldl detStep (preOpen t0) ((rest.take m).map presenceInput)
          = runDet (preOpen t0) ((rest.take m).map presenceInput) from rfl, h]
      rfl

/-- Witness for C3: presence held at times 0 and 11 (11 s ≥ 10 s dwell). -/
theorem single_open_per_dwell_witness :
    (runDetOuts initDetState (([0, 11] : List ℤ).map presenceInput)).count true
        = 1 ∧
    ∀ n, 0 < n →
      (runDet initDetState
          ((([0, 11] : List ℤ).map presenceInput).take n)).current_detection_time
        = some 0 :=
  single_open_per_dwell 0 [11]
    (by norm_num [List.chain_cons])
    ⟨11, by simp, by norm_num [required_detection_time]⟩

theorem runFilter_length (W : ℤ) (calls : List (ℤ × Bool)) :
    ∀ s : List ℤ, (runFilter W s calls).length = calls.length := by
  induction calls with
  | nil => intro s; simp [runFilter]
  | cons c rest ih => intro s; simp [runFilter, ih]

theorem runFilter_append (W : ℤ) (a b : List (ℤ × Bool)) :
    ∀ s : List ℤ,
    runFilter W s (a ++ b) = runFilter W s a ++ runFilter W (filterState W s a) b := by
  induction a with
  | nil => intro s; simp [runFilter, filterState]
  | cons c rest ih =>
    intro s
    simp [runFilter, filterState, List.foldl_cons, ih]

theorem update_keeps_mem (W : ℤ) (q : Bool) (t : ℤ) (s : List ℤ) (t₀ : ℤ)
    (h : t₀ ∈ s) (hlt : t - t₀ < W) :
    t₀ ∈ (update_detection_filter W q t s).1 := by
  unfold update_detection_filter
  split <;> simp [List.mem_filter, h, hlt]

theorem update_self_mem (W : ℤ) (t : ℤ) (s : List ℤ) :
    t ∈ (update_detection_filter W true t s).1 := by
  simp [update_detection_filter]

theorem update_ret_true_of_mem (W : ℤ) (q : Bool) (t : ℤ) (s : List ℤ)
    (t₀ : ℤ) (h : t₀ ∈ (update_detection_filter W q t s).1) :
    (update_detection_filter W q t s).2 = true := by
  have hne := List.ne_nil_of_mem h
  unfold update_detection_filter at hne ⊢
  simpa using hne

theorem runFilter_persist (W t₀ : ℤ) (calls : List (ℤ × Bool)) :
    ∀ (s : List ℤ) (k : ℕ), t₀ ∈ s → k < calls.length →
    (∀ x ∈ calls.take (k + 1), x.1 - t₀ < W) →
    (runFilter W s calls).getD k false = true := by
  induction calls with
  | nil => intro s k _ hk; simp at hk
  | cons c rest ih =>
    intro s k hmem hk hbound
    have hc : c.1 - t₀ < W := hbound c (by simp)
    have hmem' : t₀ ∈ (update_detection_filter W c.2 c.1 s).1 :=
      update_keeps_mem W c.2 c.1 s t₀ hmem hc
    cases k with
    | zero =>
      have hret := update_ret_true_of_mem W c.2 c.1 s t₀ hmem'
      simp [runFilter, hret]
    | succ k' =>
      have hk' : k' < rest.length := by simpa using hk
      have hbound' : ∀ x ∈ rest.take (k' + 1), x.1 - t₀ < W := by
        intro x hx
        exact hbound x (by simp [hx])
      simpa [runFilter] using ih _ k' hmem' hk' hbound'

theorem runFilter_qual_true (W : ℤ) (calls : List (ℤ × Bool)) :
    ∀ (s : List ℤ) (k : ℕ) (hk : k < calls.length),
    (calls.get ⟨k, hk⟩).2 = true →
    (runFilter W s calls).getD k false = true := by
  induction calls with
  | nil => intro s k hk; simp at hk
  | cons c rest ih =>
    intro s k hk hq
    cases k with
    | zero =>
      have : c.2 = true := hq
      have hret := update_ret_true_of_mem W c.2 c.1 s c.1
        (by rw [this]; exact update_self_mem W c.1 s)
      simp [runFilter, hret]
    | succ k' =>
      have hk' : k' < rest.length := by simpa using hk
      simpa [runFilter] using ih _ k' hk' hq

theorem filterState_take_mem (W : ℤ) (calls : List (ℤ × Bool)) :
    ∀ (s : List ℤ) (i : ℕ) (hi : i < calls.length),
    (calls.get ⟨i, hi⟩).2 = true →
    (calls.get ⟨i, hi⟩).1 ∈ filterState W s (calls.take (i + 1)) := by
  induction calls with
  | nil => intro s i hi; simp at hi
  | cons c rest ih =>
    intro s i hi hq
    cases i with
    | zero =>
      have hc : c.2 = true := hq
      simp only [List.take_succ_cons, List.take_zero, filterState,
        List.foldl_cons, List.foldl_nil, List.get]
      rw [hc]
      exact update_self_mem W c.1 s
    | succ i' =>
      have hi' : i' < rest.length := by simpa using hi
      have := ih (update_detection_filter W c.2 c.1 s).1 i' hi' hq
      simpa [filterState, List.foldl_cons] using this

theorem mem_take_drop_index {l : List (ℤ × Bool)} {p q : ℕ} {x : ℤ × Bool}
    (hx : x ∈ (l.drop p).take q) :
    ∃ (m : ℕ) (hm : m < l.length), p ≤ m ∧ m < p + q ∧ x = l.get ⟨m, hm⟩ := by
  obtain ⟨n, hn⟩ := List.mem_iff_get.mp hx
  have hn1 : (n : ℕ) < ((l.drop p).take q).length := n.isLt
  have hlen : ((l.drop p).take q).length = min q (l.length - p) := by
    simp [List.length_take, List.length_drop]
  have hn2 : (n : ℕ) < q ∧ (n : ℕ) < l.length - p := by omega
  have hm : p + (n : ℕ) < l.length := by omega
  refine ⟨p + (n : ℕ), hm, by omega, by omega, ?_⟩
  rw [← hn, List.get_eq_getElem, List.get_eq_getElem, List.getElem_take,
    List.getElem_drop]

theorem runFilter_no_flicker (W : ℤ) (calls : List (ℤ × Bool)) (i k j : ℕ)
    (hpw : List.Pairwise (fun a b => a.1 < b.1) calls)
    (hik : i ≤ k) (hkj : k ≤ j)
    (hj : j < calls.length) (hi : i < calls.length)
    (hqi : (calls.get ⟨i, hi⟩).2 = true)
    (hqj : (calls.get ⟨j, hj⟩).2 = true)
    (hgap : (calls.get ⟨j, hj⟩).1 - (calls.get ⟨i, hi⟩).1 ≤ W) :
    (runFilter W [] calls).getD k false = true := by
  have hk : k < calls.length := by omega
  by_cases hqk : (calls.get ⟨k, hk⟩).2 = true
  · exact runFilter_qual_true W calls [] k hk hqk
  · have hik' : i < k := by
      rcases Nat.lt_or_ge i k with h | h
      · exact h
      · have hik0 : i = k := by omega
        subst hik0
        exact absurd hqi hqk
    have hkj' : k < j := by
      rcases Nat.lt_or_ge k j with h | h
      · exact h
      · have hkj0 : k = j := by omega
        subst hkj0
        exact absurd hqj hqk
    have hlen1 : (runFilter W [] (calls.take (i + 1))).length = i + 1 := by
      rw [runFilter_length]
      simp [List.length_take]
      omega
    conv_lhs =>
      rw [show calls = calls.take (i + 1) ++ calls.drop (i + 1) from
        (List.take_append_drop (i + 1) calls).symm]
    rw [runFilter_append, List.getD_append_right _ _ _ _ (by omega), hlen1]
    apply runFilter_persist W ((calls.get ⟨i, hi⟩).1)
    · exact filterState_take_mem W calls [] i hi hqi
    · simp [List.length_drop]
      omega
    · intro x hx
      obtain ⟨m, hm, hpm, hmq, rfl⟩ := mem_take_drop_index hx
      have hmj : m < j := by omega
      have hlt := List.pairwise_iff_get.mp hpw ⟨m, hm⟩ ⟨j, hj⟩
        (Fin.mk_lt_mk.mpr hmj)
      omega

/-- C8: on every call, `update_detection_filter` first prunes every
timestamp `t` with `now - t ≥ filter_window` from the presence window
(whether or not the current frame qualifies), appends `now` exactly when
the frame qualifies, and returns `true` iff the resulting window is
non-empty; consequently, along any run with strictly increasing timestamps,
between any two qualifying updates at most `filter_window` apart the
returned debounced presence is `true` at every update (no flicker). -/
theorem debounce_prune_append_no_flicker :
    (∀ (W now : ℤ) (q : Bool) (s : List ℤ),
      (update_detection_filter W q now s).1
          = s.filter (fun t => decide (now - t < W))
            ++ (if q then [now] else []) ∧
      ((update_detection_filter W q now s).2 = true ↔
        (s.filter (fun t => decide (now - t < W)) ≠ [] ∨ q = true))) ∧
    (∀ (W : ℤ) (calls : List (ℤ × Bool)) (i k j : ℕ),
      List.Pairwise (fun a b => a.1 < b.1) calls →
      i ≤ k → k ≤ j →
      ∀ (hj : j < calls.length) (hi : i < calls.length),
      (calls.get ⟨i, hi⟩).2 = true →
      (calls.get ⟨j, hj⟩).2 = true →
      (calls.get ⟨j, hj⟩).1 - (calls.get ⟨i, hi⟩).1 ≤ W →
      (runFilter W [] calls).getD k false = true) := by
  constructor
  · intro W now q s
    constructor
    · unfold update_detection_filter
      cases q <;> simp
    · unfold update_detection_filter
      cases q <;> simp
  · intro W calls i k j hpw hik hkj hj hi hqi hqj hgap
    exact runFilter_no_flicker W calls i k j hpw hik hkj hj hi hqi hqj hgap

/-- Witness for C8: qualifying updates at times 0 and 4 (gap 4 ≤ 5), with a
non-qualifying update at time 2 in between that still reports presence. -/
theorem debounce_prune_append_no_flicker_witness :
    (runFilter 5 [] [((0 : ℤ), true), (2, false), (4, true)]).getD 1 false
      = true :=
  debounce_prune_append_no_flicker.2 5 [((0 : ℤ), true), (2, false), (4, true)]
    0 1 2 (by norm_num [List.pairwise_cons]) (by omega) (by omega)
    (by norm_num) (by norm_num) rfl rfl (by decide)

end CatWindow
